import Mathlib

/-!
Verification of the filter / merge / persist logic of the YouTube comment
labeling application (src/label_app.py).

The app manipulates pandas DataFrames.  Two embeddings are used:

* a typed row model (CommentRow / VideoRow) for filter_comments and for the
  save-button block of main, whose code only reads the text_original, videoId
  and label columns;
* a schema-aware model (Df: a column list plus association-list rows) for
  merge_with_existing_labels, whose behaviour depends on which columns are
  present (the guard at line 165, the column selection at line 168, and the
  suffix handling of the pandas merge at lines 167-172).
-/

/-- A row of the comments table as the filter and save logic see it:
the text_original and videoId columns, plus the label column
(None / NaN modelled as Option.none, a numeric label as some n). -/
structure CommentRow where
  text_original : String
  videoId : String
  label : Option Nat
  deriving DecidableEq, Repr

/-- A row of the videos table: videoId and frame columns. -/
structure VideoRow where
  videoId : String
  frame : Int
  deriving DecidableEq, Repr

/-- Embedding of filter_comments (label_app.py lines 118-143):
filter by videoId equality, then, only when BOTH a frame and a videos
table are supplied, intersect with the videoIds whose frame matches
(the isin call at line 141). -/
def filter_comments (comments_df : List CommentRow) (video_id : String)
    (videos_df : Option (List VideoRow)) (frame : Option Int) : List CommentRow :=
  let filtered := comments_df.filter (fun r => r.videoId == video_id)
  match frame, videos_df with
  | some f, some vdf =>
    let matching_videos := (vdf.filter (fun v => v.frame == f)).map (fun v => v.videoId)
    filtered.filter (fun r => decide (r.videoId ∈ matching_videos))
  | _, _ => filtered

/-- Embedding of the duplicate-removal mask of the save block
(label_app.py lines 377-381): keep a persisted row unless its
text_original occurs among the view texts AND its videoId occurs among
the view videoIds — two independent isin membership tests, not a pair test. -/
def save_first_step (existing_labels filtered_comments : List CommentRow) :
    List CommentRow :=
  existing_labels.filter (fun p =>
    !(decide (p.text_original ∈ filtered_comments.map (fun r => r.text_original)) &&
      decide (p.videoId ∈ filtered_comments.map (fun r => r.videoId))))

/-- Embedding of the whole save-button data preparation
(label_app.py lines 374-389): when prior labels exist, drop the masked
rows and concatenate with the current view; then drop every row whose
label is null (the notna filter at line 389).  The list returned is
exactly the dataset handed to save_labeled_data, i.e. the content of the
persisted file after a successful save. -/
def save_block (existing_labels : Option (List CommentRow))
    (filtered_comments : List CommentRow) : List CommentRow :=
  let all_labeled :=
    match existing_labels with
    | some ex => save_first_step ex filtered_comments ++ filtered_comments
    | none => filtered_comments
  all_labeled.filter (fun r => r.label.isSome)

/-- Outcome of the underlying file write, abstracting the I/O performed by
DataFrame.to_csv at line 81: it either succeeds or raises an exception. -/
inductive WriteOutcome where
  | success
  | failure (msg : String)
  deriving DecidableEq, Repr

/-- True exactly when the write succeeded. -/
def WriteOutcome.isSuccess : WriteOutcome → Bool
  | .success => true
  | .failure _ => false

/-- The df.to_csv call (label_app.py line 81) as a fallible operation:
it reads the dataframe and either returns unit or raises. -/
def to_csv (_df : List CommentRow) (w : WriteOutcome) : Except String Unit :=
  match w with
  | .success => Except.ok ()
  | .failure m => Except.error m

/-- Embedding of save_labeled_data (label_app.py lines 70-85): try the
write; on success return True, on any exception catch it and return
False.  The dataframe is only read, never written, so the pair returned
carries the (unchanged) in-memory data alongside the boolean. -/
def save_labeled_data (df : List CommentRow) (w : WriteOutcome) :
    Bool × List CommentRow :=
  match to_csv df w with
  | .ok _ => (true, df)
  | .error _ => (false, df)

/-- A cell value of a DataFrame: a string, a number, or NaN / None. -/
inductive Value where
  | str (s : String)
  | num (n : Nat)
  | null
  deriving DecidableEq, Repr

/-- A DataFrame row: an association list from column name to cell value. -/
abbrev Row := List (String × Value)

/-- Reading a cell: a missing cell reads as NaN, as pandas does for a
column the row has no value in. -/
def getVal (r : Row) (c : String) : Value :=
  match r.lookup c with
  | some v => v
  | none => Value.null

/-- Assigning a column of a row (df[col] = value): replace the existing
cell, or append the column when absent. -/
def setCol (r : Row) (c : String) (v : Value) : Row :=
  match r with
  | [] => [(c, v)]
  | (c0, v0) :: rest => if c0 = c then (c, v) :: rest else (c0, v0) :: setCol rest c v

/-- A DataFrame: its column list and its rows. -/
structure Df where
  cols : List String
  rows : List Row
  deriving DecidableEq, Repr

/-- The assignment comments_df['label'] = None (label_app.py lines 160 and
175): every row gets a null label cell, and the label column is appended
to the schema when absent. -/
def set_label_null (df : Df) : Df :=
  ⟨if "label" ∈ df.cols then df.cols else df.cols ++ ["label"],
    df.rows.map (fun r => setCol r "label" Value.null)⟩

/-- Column selection df[[c1, c2, c3]] (label_app.py line 168): project every
row onto the requested columns, raising KeyError when one is absent. -/
def select_cols (df : Df) (cs : List String) : Except String Df :=
  if ∀ c ∈ cs, c ∈ df.cols then
    Except.ok ⟨cs, df.rows.map (fun r => cs.map (fun c => (c, getVal r c)))⟩
  else Except.error "KeyError"

/-- Join-key agreement of a left and a right row: equal values on every
key column, with a NaN key never matching (pandas NaN != NaN). -/
def keys_match (keys : List String) (lr rr : Row) : Bool :=
  decide (∀ k ∈ keys, getVal lr k = getVal rr k ∧ getVal lr k ≠ Value.null)

/-- The suffixes=('', '_existing') handling of the pandas merge
(label_app.py line 171): a right column colliding with a left column is
renamed with the _existing suffix, the left column keeps its name. -/
def suffix_name (leftCols : List String) (c : String) : String :=
  if c ∈ leftCols then c ++ "_existing" else c

/-- The pandas left merge left.merge(right, on=keys, how='left')
(label_app.py lines 167-172): KeyError when a key column is absent on
either side; otherwise every left row is joined with every matching right
row, or padded with NaN when no right row matches.  Non-key right columns
are appended under their (possibly suffixed) names. -/
def merge_left (left right : Df) (keys : List String) : Except String Df :=
  if (∀ k ∈ keys, k ∈ left.cols) ∧ (∀ k ∈ keys, k ∈ right.cols) then
    Except.ok ⟨left.cols ++
        (right.cols.filter (fun c => decide (c ∉ keys))).map (suffix_name left.cols),
      left.rows.flatMap (fun lr =>
        if right.rows.filter (fun rr => keys_match keys lr rr) = [] then
          [lr ++ (right.cols.filter (fun c => decide (c ∉ keys))).map
            (fun c => (suffix_name left.cols c, Value.null))]
        else
          (right.rows.filter (fun rr => keys_match keys lr rr)).map
            (fun rr => lr ++ (right.cols.filter (fun c => decide (c ∉ keys))).map
              (fun c => (suffix_name left.cols c, getVal rr c))))⟩
  else Except.error "KeyError"

/-- Embedding of merge_with_existing_labels (label_app.py lines 146-176):
with no prior labels, or an empty prior table, or text_original missing on
either side, attach a null label column; otherwise select
text_original, videoId, label from the prior table (KeyError when one is
missing) and left-merge on (text_original, videoId). -/
def merge_with_existing_labels (comments_df : Df) (existing_labels : Option Df) :
    Except String Df :=
  match existing_labels with
  | none => Except.ok (set_label_null comments_df)
  | some e =>
    if e.rows = [] then Except.ok (set_label_null comments_df)
    else if "text_original" ∈ comments_df.cols ∧ "text_original" ∈ e.cols then
      match select_cols e ["text_original", "videoId", "label"] with
      | Except.ok sel => merge_left comments_df sel ["text_original", "videoId"]
      | Except.error m => Except.error m
    else Except.ok (set_label_null comments_df)

/-- The left join described by the spec for one current row, written from
the spec's words (for comparison with the code): for the current row find
the persisted rows sharing its (text_original, videoId) key; attach its
label if found, else attach a null label. -/
def spec_left_join_row (erows : List Row) (lr : Row) : List Row :=
  if erows.filter (fun rr => keys_match ["text_original", "videoId"] lr rr) = [] then
    [lr ++ [("label", Value.null)]]
  else
    (erows.filter (fun rr => keys_match ["text_original", "videoId"] lr rr)).map
      (fun rr => lr ++ [("label", getVal rr "label")])

/-- A comments table fresh from a CSV: required columns, no label column. -/
def plain_comments_df : Df :=
  ⟨["text_original", "videoId"],
    [[("text_original", Value.str "t1"), ("videoId", Value.str "vA")]]⟩

/-- A well-formed persisted labels table. -/
def full_labels_df : Df :=
  ⟨["text_original", "videoId", "label"],
    [[("text_original", Value.str "t1"), ("videoId", Value.str "vA"),
      ("label", Value.num 2)]]⟩

/-- An already-merged labeled view: it carries a label column. -/
def labeled_view_df : Df :=
  ⟨["text_original", "videoId", "label"],
    [[("text_original", Value.str "t1"), ("videoId", Value.str "vA"),
      ("label", Value.num 3)]]⟩

/-- A persisted table lacking the videoId join column (but having
text_original). -/
def no_videoId_labels_df : Df :=
  ⟨["text_original", "label"],
    [[("text_original", Value.str "t1"), ("label", Value.num 1)]]⟩

/-- A persisted table lacking the text_original join column. -/
def no_text_labels_df : Df :=
  ⟨["videoId", "label"],
    [[("videoId", Value.str "vA"), ("label", Value.num 1)]]⟩

/-- A two-video view on which the independent membership tests differ from
pair matching. -/
def ce_view : List CommentRow := [⟨"t1", "vA", some 1⟩, ⟨"t2", "vB", some 2⟩]

/-- A persisted row whose text occurs in ce_view and whose videoId occurs in
ce_view, but never together in one row of ce_view. -/
def ce_row : CommentRow := ⟨"t1", "vB", some 3⟩

/-- C7: filtering by a video id together with a frame yields a sublist
(hence a subset) of filtering by the video id alone. -/
theorem filter_frame_sublist_filter_video (comments_df : List CommentRow)
    (video_id : String) (videos_df : List VideoRow) (frame : Int) :
    (filter_comments comments_df video_id (some videos_df) (some frame)).Sublist
      (filter_comments comments_df video_id none none) := by
  simp only [filter_comments]
  exact List.filter_sublist _

/-- C8: if a video id is not the videoId of any comment row, filtering by it
returns the empty list (for every choice of videos table and frame),
never an error. -/
theorem filter_absent_video_eq_nil (comments_df : List CommentRow)
    (video_id : String) (videos_df : Option (List VideoRow)) (frame : Option Int)
    (h : ∀ r ∈ comments_df, r.videoId ≠ video_id) :
    filter_comments comments_df video_id videos_df frame = [] := by
  have hbase : comments_df.filter (fun r => r.videoId == video_id) = [] := by
    rw [List.filter_eq_nil_iff]
    intro r hr
    simpa using h r hr
  cases frame with
  | none => simpa [filter_comments] using hbase
  | some f =>
    cases videos_df with
    | none => simpa [filter_comments] using hbase
    | some vdf => simp [filter_comments, hbase]

/-- Witness for C8 at a concrete input. -/
theorem filter_absent_video_eq_nil_witness :
    filter_comments [⟨"hello", "vA", none⟩] "vB" none none = [] :=
  filter_absent_video_eq_nil [⟨"hello", "vA", none⟩] "vB" none none (by decide)

/-- C10: when a frame is supplied but no videos table is, filter_comments
silently ignores the frame: the result is the same as filtering with no
frame at all. -/
theorem filter_frame_without_videos_ignored (comments_df : List CommentRow)
    (video_id : String) (frame : Int) :
    filter_comments comments_df video_id none (some frame) =
      filter_comments comments_df video_id none none := by
  rfl

/-- C4: every row of the dataset prepared by the save block carries a
non-null label; unlabeled rows are never part of the persisted output. -/
theorem save_block_all_labeled (existing_labels : Option (List CommentRow))
    (filtered_comments : List CommentRow) :
    (save_block existing_labels filtered_comments).all
      (fun r => r.label.isSome) = true := by
  cases existing_labels <;> simp [save_block, List.all_eq_true]

/-- Setting a column makes the row read that value at that column. -/
lemma getVal_setCol_self (r : Row) (c : String) (v : Value) :
    getVal (setCol r c v) c = v := by
  induction r with
  | nil => simp [setCol, getVal]
  | cons hd tl ih =>
    obtain ⟨c0, v0⟩ := hd
    by_cases h : c0 = c
    · simp [setCol, h, getVal]
    · have hb : (c == c0) = false := by
        simp only [beq_eq_false_iff_ne, ne_eq]
        exact fun hcc => h hcc.symm
      simp only [setCol, if_neg h, getVal, List.lookup_cons, hb] at ih ⊢
      exact ih

/-- Appending a cell under a different column name does not change a read. -/
lemma getVal_append_right_ne (r : Row) (cA c : String) (v : Value) (h : cA ≠ c) :
    getVal (r ++ [(cA, v)]) c = getVal r c := by
  have hb : (c == cA) = false := by
    simp only [beq_eq_false_iff_ne, ne_eq]
    exact fun hcc => h hcc.symm
  simp only [getVal, List.lookup_append, List.lookup_cons, hb]
  cases r.lookup c <;> rfl

/-- Appending a cell under a column the row lacks makes the row read it. -/
lemma getVal_append_right_self (r : Row) (c : String) (v : Value)
    (h : r.lookup c = none) :
    getVal (r ++ [(c, v)]) c = v := by
  simp [getVal, List.lookup_append, h]

/-- Projecting a row onto a column list preserves the reads of the listed
columns. -/
lemma getVal_proj (cs : List String) (r : Row) (c : String) (h : c ∈ cs) :
    getVal (cs.map (fun c1 => (c1, getVal r c1))) c = getVal r c := by
  induction cs with
  | nil => cases h
  | cons c0 cst ih =>
    by_cases hc : c = c0
    · subst hc
      simp [getVal, List.lookup_cons]
    · have hmem : c ∈ cst := by
        rcases List.mem_cons.mp h with h1 | h1
        · exact absurd h1 hc
        · exact h1
      have hb : (c == c0) = false := by
        simp only [beq_eq_false_iff_ne, ne_eq]
        exact hc
      simp only [List.map_cons, getVal, List.lookup_cons, hb] at ih ⊢
      exact ih hmem

/-- Join-key agreement is invariant under projecting the right row onto a
column list containing all the keys. -/
lemma keys_match_proj (keys cs : List String) (lr rr : Row)
    (hks : ∀ k ∈ keys, k ∈ cs) :
    keys_match keys lr (cs.map (fun c1 => (c1, getVal rr c1))) =
      keys_match keys lr rr := by
  unfold keys_match
  rw [decide_eq_decide]
  constructor <;> intro h k hk
  · have hkk := h k hk
    rwa [getVal_proj cs rr k (hks k hk)] at hkk
  · have hkk := h k hk
    rwa [getVal_proj cs rr k (hks k hk)]

/-- Filtering projected rows by key agreement is projecting the filtered
rows. -/
lemma filter_proj (erows : List Row) (lr : Row) (cs keys : List String)
    (hks : ∀ k ∈ keys, k ∈ cs) :
    (erows.map (fun rr => cs.map (fun c => (c, getVal rr c)))).filter
        (fun rr => keys_match keys lr rr) =
      (erows.filter (fun rr => keys_match keys lr rr)).map
        (fun rr => cs.map (fun c => (c, getVal rr c))) := by
  rw [List.filter_map]
  congr 1
  apply List.filter_congr
  intro rr _
  show keys_match keys lr ((fun rr => cs.map (fun c => (c, getVal rr c))) rr) = _
  exact keys_match_proj keys cs lr rr hks

/-- What the merge computes when prior labels are present and every column
the code touches exists: a left join of the current rows with the prior
rows on (text_original, videoId), the prior label landing in a column
whose name depends on whether the current table already has one. -/
lemma merge_some_eq (df e : Df) (hne : e.rows ≠ [])
    (hc1 : "text_original" ∈ df.cols) (hc2 : "videoId" ∈ df.cols)
    (he1 : "text_original" ∈ e.cols) (he2 : "videoId" ∈ e.cols)
    (he3 : "label" ∈ e.cols) :
    merge_with_existing_labels df (some e) = Except.ok
      ⟨df.cols ++ [suffix_name df.cols "label"],
        df.rows.flatMap (fun lr =>
          if e.rows.filter
              (fun rr => keys_match ["text_original", "videoId"] lr rr) = [] then
            [lr ++ [(suffix_name df.cols "label", Value.null)]]
          else
            (e.rows.filter
                (fun rr => keys_match ["text_original", "videoId"] lr rr)).map
              (fun rr => lr ++ [(suffix_name df.cols "label", getVal rr "label")]))⟩ := by
  have hsel : ∀ c ∈ (["text_original", "videoId", "label"] : List String), c ∈ e.cols := by
    intro c hc
    simp only [List.mem_cons, List.not_mem_nil, or_false] at hc
    rcases hc with rfl | rfl | rfl
    exacts [he1, he2, he3]
  have hkeys1 : ∀ k ∈ (["text_original", "videoId"] : List String), k ∈ df.cols := by
    intro k hk
    simp only [List.mem_cons, List.not_mem_nil, or_false] at hk
    rcases hk with rfl | rfl
    exacts [hc1, hc2]
  have hkeys2 : ∀ k ∈ (["text_original", "videoId"] : List String),
      k ∈ (["text_original", "videoId", "label"] : List String) := by decide
  have h1 : merge_with_existing_labels df (some e) =
      match select_cols e ["text_original", "videoId", "label"] with
      | Except.ok sel => merge_left df sel ["text_original", "videoId"]
      | Except.error m => Except.error m := by
    simp only [merge_with_existing_labels]
    rw [if_neg hne, if_pos ⟨hc1, he1⟩]
  have h2 : select_cols e ["text_original", "videoId", "label"] = Except.ok
      ⟨["text_original", "videoId", "label"],
        e.rows.map (fun r =>
          (["text_original", "videoId", "label"] : List String).map
            (fun c => (c, getVal r c)))⟩ := by
    simp only [select_cols]
    rw [if_pos hsel]
  rw [h1, h2]
  simp only [merge_left]
  rw [if_pos ⟨hkeys1, hkeys2⟩]
  have hrnk : (["text_original", "videoId", "label"] : List String).filter
      (fun c => decide (c ∉ (["text_original", "videoId"] : List String))) = ["label"] := by
    decide
  congr 1
  congr 1
  apply List.flatMap_congr
  intro lr _
  rw [filter_proj e.rows lr ["text_original", "videoId", "label"]
    ["text_original", "videoId"] hkeys2, hrnk]
  cases hms : e.rows.filter (fun rr => keys_match ["text_original", "videoId"] lr rr) with
  | nil => simp
  | cons m mt =>
    rw [if_neg (by simp), if_neg (List.cons_ne_nil _ _), List.map_map]
    apply List.map_congr_left
    intro rr _
    have hlab : getVal ((["text_original", "videoId", "label"] : List String).map
        (fun c => (c, getVal rr c))) "label" = getVal rr "label" :=
      getVal_proj _ rr "label" (by decide)
    simp only [List.map_cons, List.map_nil] at hlab
    simp only [Function.comp, List.map_cons, List.map_nil, hlab]

/-- C6: with no prior labels every current row gets a null label; with a
nonempty prior table carrying its required columns (and a current table
with the required columns and no label column of its own, as produced by
the loader), the merge is exactly the left join the spec describes: each
current row receives the label of a persisted row sharing its
(text_original, videoId) key, or a null label when none matches. -/
theorem merge_left_join_spec (comments_df e : Df) (hne : e.rows ≠ [])
    (hc1 : "text_original" ∈ comments_df.cols) (hc2 : "videoId" ∈ comments_df.cols)
    (hcl : "label" ∉ comments_df.cols)
    (he1 : "text_original" ∈ e.cols) (he2 : "videoId" ∈ e.cols)
    (he3 : "label" ∈ e.cols)
    (hrow : ∀ lr ∈ comments_df.rows, lr.lookup "label" = none) :
    (merge_with_existing_labels comments_df none =
        Except.ok (set_label_null comments_df) ∧
      ∀ r0 ∈ (set_label_null comments_df).rows, getVal r0 "label" = Value.null) ∧
    ∃ res, merge_with_existing_labels comments_df (some e) = Except.ok res ∧
      res.rows = comments_df.rows.flatMap (spec_left_join_row e.rows) ∧
      ∀ out ∈ res.rows, ∃ lr ∈ comments_df.rows,
        ((∃ rr ∈ e.rows, keys_match ["text_original", "videoId"] lr rr = true ∧
            getVal out "label" = getVal rr "label") ∨
          ((∀ rr ∈ e.rows, keys_match ["text_original", "videoId"] lr rr = false) ∧
            getVal out "label" = Value.null)) := by
  have hsfx : suffix_name comments_df.cols "label" = "label" := by
    simp [suffix_name, hcl]
  have hs := merge_some_eq comments_df e hne hc1 hc2 he1 he2 he3
  rw [hsfx] at hs
  constructor
  · refine ⟨rfl, ?_⟩
    intro r0 hr0
    simp only [set_label_null, List.mem_map] at hr0
    obtain ⟨r1, _, rfl⟩ := hr0
    exact getVal_setCol_self r1 "label" Value.null
  · refine ⟨_, hs, rfl, ?_⟩
    intro out hout
    rcases List.mem_flatMap.mp hout with ⟨lr, hlr, hbody⟩
    refine ⟨lr, hlr, ?_⟩
    by_cases hms : e.rows.filter
        (fun rr => keys_match ["text_original", "videoId"] lr rr) = []
    · rw [if_pos hms] at hbody
      simp only [List.mem_singleton] at hbody
      subst hbody
      right
      constructor
      · intro rr hrr
        have h0 := List.filter_eq_nil_iff.mp hms rr hrr
        simpa using h0
      · exact getVal_append_right_self lr "label" Value.null (hrow lr hlr)
    · rw [if_neg hms] at hbody
      rcases List.mem_map.mp hbody with ⟨rr, hrrf, rfl⟩
      have hrrm := List.mem_filter.mp hrrf
      left
      exact ⟨rr, hrrm.1, hrrm.2,
        getVal_append_right_self lr "label" _ (hrow lr hlr)⟩

/-- Witness for C6 at concrete tables. -/
theorem merge_left_join_spec_witness :
    (merge_with_existing_labels plain_comments_df none =
        Except.ok (set_label_null plain_comments_df) ∧
      ∀ r0 ∈ (set_label_null plain_comments_df).rows,
        getVal r0 "label" = Value.null) ∧
    ∃ res, merge_with_existing_labels plain_comments_df (some full_labels_df) =
        Except.ok res ∧
      res.rows = plain_comments_df.rows.flatMap
        (spec_left_join_row full_labels_df.rows) ∧
      ∀ out ∈ res.rows, ∃ lr ∈ plain_comments_df.rows,
        ((∃ rr ∈ full_labels_df.rows,
            keys_match ["text_original", "videoId"] lr rr = true ∧
            getVal out "label" = getVal rr "label") ∨
          ((∀ rr ∈ full_labels_df.rows,
            keys_match ["text_original", "videoId"] lr rr = false) ∧
            getVal out "label" = Value.null)) :=
  merge_left_join_spec plain_comments_df full_labels_df (by decide) (by decide)
    (by decide) (by decide) (by decide) (by decide) (by decide) (by decide)

/-- C5: merging an already-merged (labeled) view with the same persisted
set again leaves every existing label value of the view's rows unchanged.
The result decomposes row by row: each view row lr contributes exactly the
block of rows obtained by extending lr itself with a label_existing cell
(null when no persisted row matches, the persisted label of each match
otherwise) — the right label lands in the suffixed label_existing column —
and any such extension of lr still reads lr's own label value, so each
view row keeps its own label. -/
theorem merge_idempotent_on_labels (view e : Df) (hne : e.rows ≠ [])
    (hv1 : "text_original" ∈ view.cols) (hv2 : "videoId" ∈ view.cols)
    (hvl : "label" ∈ view.cols)
    (he1 : "text_original" ∈ e.cols) (he2 : "videoId" ∈ e.cols)
    (he3 : "label" ∈ e.cols) :
    ∃ res, merge_with_existing_labels view (some e) = Except.ok res ∧
      res.rows = view.rows.flatMap (fun lr =>
        if e.rows.filter
            (fun rr => keys_match ["text_original", "videoId"] lr rr) = [] then
          [lr ++ [("label_existing", Value.null)]]
        else
          (e.rows.filter
              (fun rr => keys_match ["text_original", "videoId"] lr rr)).map
            (fun rr => lr ++ [("label_existing", getVal rr "label")])) ∧
      ∀ lr ∈ view.rows, ∀ v : Value,
        getVal (lr ++ [("label_existing", v)]) "label" = getVal lr "label" := by
  have hsfx : suffix_name view.cols "label" = "label_existing" := by
    simp [suffix_name, hvl]
  have hs := merge_some_eq view e hne hv1 hv2 he1 he2 he3
  rw [hsfx] at hs
  have hni : ("label_existing" : String) ≠ "label" := by decide
  refine ⟨_, hs, rfl, ?_⟩
  intro lr _ v
  exact getVal_append_right_ne lr "label_existing" "label" v hni

/-- Witness for C5 at concrete tables. -/
theorem merge_idempotent_on_labels_witness :
    ∃ res, merge_with_existing_labels labeled_view_df (some full_labels_df) =
        Except.ok res ∧
      res.rows = labeled_view_df.rows.flatMap (fun lr =>
        if full_labels_df.rows.filter
            (fun rr => keys_match ["text_original", "videoId"] lr rr) = [] then
          [lr ++ [("label_existing", Value.null)]]
        else
          (full_labels_df.rows.filter
              (fun rr => keys_match ["text_original", "videoId"] lr rr)).map
            (fun rr => lr ++ [("label_existing", getVal rr "label")])) ∧
      ∀ lr ∈ labeled_view_df.rows, ∀ v : Value,
        getVal (lr ++ [("label_existing", v)]) "label" = getVal lr "label" :=
  merge_idempotent_on_labels labeled_view_df full_labels_df (by decide)
    (by decide) (by decide) (by decide) (by decide) (by decide) (by decide)

/-- C3 counterexample: a persisted table that lacks the required videoId
join column (while having text_original) makes the merge raise a KeyError
instead of falling back to null labels. -/
theorem merge_missing_videoId_raises :
    "videoId" ∉ no_videoId_labels_df.cols ∧
    merge_with_existing_labels plain_comments_df (some no_videoId_labels_df) =
      Except.error "KeyError" := by
  exact ⟨by decide, by rfl⟩

/-- C3 (amended): only when the persisted table lacks the text_original
column (or there is no persisted table, or it is empty) does the merge
fall back to attaching a null label to every row and return normally; a
persisted table having text_original but lacking videoId (or label)
makes it raise instead. -/
theorem merge_missing_text_original_silent (comments_df e : Df)
    (h : "text_original" ∉ e.cols) :
    merge_with_existing_labels comments_df (some e) =
      Except.ok (set_label_null comments_df) ∧
    ∀ r ∈ (set_label_null comments_df).rows, getVal r "label" = Value.null := by
  constructor
  · have hng : ¬("text_original" ∈ comments_df.cols ∧ "text_original" ∈ e.cols) :=
      fun hand => h hand.2
    simp only [merge_with_existing_labels]
    by_cases hr : e.rows = []
    · rw [if_pos hr]
    · rw [if_neg hr, if_neg hng]
  · intro r hr
    simp only [set_label_null, List.mem_map] at hr
    obtain ⟨r1, _, rfl⟩ := hr
    exact getVal_setCol_self r1 "label" Value.null

/-- Witness for the amended C3 at concrete tables. -/
theorem merge_missing_text_original_silent_witness :
    merge_with_existing_labels plain_comments_df (some no_text_labels_df) =
      Except.ok (set_label_null plain_comments_df) ∧
    ∀ r ∈ (set_label_null plain_comments_df).rows,
      getVal r "label" = Value.null :=
  merge_missing_text_original_silent plain_comments_df no_text_labels_df
    (by decide)

/-- The duplicate-removal mask coincides with removal of exact
(text_original, videoId) pairs whenever every row of the view carries one
and the same videoId — which is the case for every view produced by
filter_comments, since its first step keeps only rows with the selected
videoId. -/
lemma mask_eq_pair_of_single_video (view : List CommentRow) (v : String)
    (hv : ∀ r ∈ view, r.videoId = v) (p : CommentRow) :
    (decide (p.text_original ∈ view.map (fun r => r.text_original)) &&
      decide (p.videoId ∈ view.map (fun r => r.videoId))) =
    decide (∃ r ∈ view, r.text_original = p.text_original ∧ r.videoId = p.videoId) := by
  rw [Bool.eq_iff_iff]
  simp only [Bool.and_eq_true, decide_eq_true_eq]
  constructor
  · rintro ⟨ht, hvm⟩
    rcases List.mem_map.mp ht with ⟨r1, hr1, hr1t⟩
    rcases List.mem_map.mp hvm with ⟨r2, hr2, hr2v⟩
    exact ⟨r1, hr1, hr1t, by rw [hv r1 hr1, ← hr2v, hv r2 hr2]⟩
  · rintro ⟨r, hr, hrt, hrv⟩
    exact ⟨List.mem_map.mpr ⟨r, hr, hrt⟩, List.mem_map.mpr ⟨r, hr, hrv⟩⟩

/-- C1 counterexample: the pair (t1, vB) appears in no row of the view, yet
the first step of save removes the persisted row (t1, vB, 3) — it is not
kept, contradicting the claim's pairwise-removal reading. -/
theorem save_first_step_not_pairwise :
    decide (∃ r ∈ ce_view, r.text_original = ce_row.text_original ∧
      r.videoId = ce_row.videoId) = false ∧
    save_first_step [ce_row] ce_view = [] := by
  exact ⟨by decide, by decide⟩

/-- C1 (amended): the first step of save removes a persisted row exactly
when its text occurs among the view texts and its videoId occurs among the
view videoIds, independently; when all rows of the view share one videoId
(as every view produced by filter_comments does) this is exactly removal of
the rows whose (text_original, videoId) pair appears in the view. -/
theorem save_first_step_pair_removal (existing_labels view : List CommentRow)
    (v : String) (hv : ∀ r ∈ view, r.videoId = v) :
    save_first_step existing_labels view =
      existing_labels.filter (fun p =>
        !decide (∃ r ∈ view, r.text_original = p.text_original ∧
          r.videoId = p.videoId)) := by
  unfold save_first_step
  apply List.filter_congr
  intro p _
  rw [mask_eq_pair_of_single_video view v hv p]

/-- Witness for the amended C1 at a concrete input. -/
theorem save_first_step_pair_removal_witness :
    save_first_step [⟨"a", "v1", some 1⟩] [⟨"a", "v1", some 2⟩] =
      [(⟨"a", "v1", some 1⟩ : CommentRow)].filter (fun p =>
        !decide (∃ r ∈ [(⟨"a", "v1", some 2⟩ : CommentRow)],
          r.text_original = p.text_original ∧ r.videoId = p.videoId)) :=
  save_first_step_pair_removal [⟨"a", "v1", some 1⟩] [⟨"a", "v1", some 2⟩]
    "v1" (by decide)

/-- C2 counterexample: the persisted labeled row (t1, vB, 3) matches no
(text_original, videoId) pair of the view, yet it does not survive the
save: the claimed round-trip equality fails on this input. -/
theorem save_block_drops_unmatched_persisted_row :
    ce_row.label.isSome = true ∧
    decide (∃ r ∈ ce_view, r.text_original = ce_row.text_original ∧
      r.videoId = ce_row.videoId) = false ∧
    ce_row ∉ save_block (some [ce_row]) ce_view := by
  exact ⟨rfl, by decide, by decide⟩

/-- C2 (amended): provided every row of the view shares one videoId (true of
every view produced by filter_comments) and every prior persisted row is
labeled (true of every file a save produces), the saved file content is
exactly the prior persisted rows whose (text_original, videoId) key matches
no view row, followed by the labeled subset of the view. -/
theorem save_block_round_trip (existing_labels view : List CommentRow)
    (v : String) (hv : ∀ r ∈ view, r.videoId = v)
    (hex : ∀ p ∈ existing_labels, p.label.isSome) :
    save_block (some existing_labels) view =
      existing_labels.filter (fun p =>
        !decide (∃ r ∈ view, r.text_original = p.text_original ∧
          r.videoId = p.videoId)) ++
      view.filter (fun r => r.label.isSome) := by
  show ((save_first_step existing_labels view ++ view).filter
    (fun r => r.label.isSome)) = _
  rw [List.filter_append]
  congr 1
  unfold save_first_step
  rw [List.filter_filter]
  apply List.filter_congr
  intro p hp
  rw [mask_eq_pair_of_single_video view v hv p, hex p hp, Bool.true_and]

/-- Witness for the amended C2 at a concrete input. -/
theorem save_block_round_trip_witness :
    save_block (some [⟨"old", "vB", some 2⟩]) [⟨"t", "vA", some 1⟩] =
      [(⟨"old", "vB", some 2⟩ : CommentRow)].filter (fun p =>
        !decide (∃ r ∈ [(⟨"t", "vA", some 1⟩ : CommentRow)],
          r.text_original = p.text_original ∧ r.videoId = p.videoId)) ++
      [(⟨"t", "vA", some 1⟩ : CommentRow)].filter (fun r => r.label.isSome) :=
  save_block_round_trip [⟨"old", "vB", some 2⟩] [⟨"t", "vA", some 1⟩]
    "vA" (by decide) (by decide)

/-- C9: save_labeled_data reports a failed write as False and a successful
write as True, returns rather than propagating the exception, and hands
back the in-memory data unchanged. -/
theorem save_labeled_data_reports_bool (df : List CommentRow) (w : WriteOutcome) :
    save_labeled_data df w = (w.isSuccess, df) := by
  cases w <;> rfl
